import Mathlib

/-!
Verification of the monoio-tls staging-buffer adapter.

Shallow embedding of the code in `monoio-io-wrapper/src/safe_io.rs`,
`monoio-io-wrapper/src/unsafe_io.rs`, `monoio-rustls/src/stream.rs`,
`monoio-rustls/src/split.rs` and `monoio-native-tls/src/stream.rs`.
Bytes are modelled as `Nat`, byte regions as `List Nat`, `std::io::Error`
as a kind plus a message payload, and the async transport as an oracle
supplying the outcome of each rent-style read/write.
-/

/-- Error kinds of `std::io::ErrorKind` that the adapter distinguishes. -/
inductive ErrKind where
  | wouldBlock
  | unexpectedEof
  | invalidData
  | other (code : Nat)
deriving DecidableEq

/-- Model of `std::io::Error`: a kind plus a message payload.
`ErrorKind::into()` builds a fresh error carrying only the kind. -/
structure IoError where
  kind : ErrKind
  msg : String
deriving DecidableEq

/-- Fresh error from a kind, as produced by `e.kind().into()`. -/
def kindErr (k : ErrKind) : IoError := ⟨k, ""⟩

/-- The error `io::ErrorKind::WouldBlock.into()`. -/
def wouldBlockErr : IoError := kindErr .wouldBlock

/-- Write `src` into `dst` starting at index `i`
(models `ptr::copy_nonoverlapping` into a region of the byte buffer). -/
def setSlice (dst : List Nat) (i : Nat) (src : List Nat) : List Nat :=
  dst.take i ++ src ++ dst.drop (i + src.length)

/-- The staging `Buffer` of `safe_io.rs`: a fixed byte region `buf`
with cursors `read` (`read_pos`) and `write` (`write_pos`). -/
structure Buffer where
  read : Nat
  write : Nat
  buf : List Nat
deriving DecidableEq

namespace Buffer

/-- `Buffer::new(size)`. -/
def new (size : Nat) : Buffer := ⟨0, 0, List.replicate size 0⟩

/-- `Buffer::len`: `write - read`. -/
def len (b : Buffer) : Nat := b.write - b.read

/-- `Buffer::is_empty`. -/
def is_empty (b : Buffer) : Bool := b.len == 0

/-- `Buffer::available`: `buf.len() - write`. -/
def available (b : Buffer) : Nat := b.buf.length - b.write

/-- `Buffer::is_full`. -/
def is_full (b : Buffer) : Bool := b.available == 0

/-- Cursor update of `Buffer::advance` after its assertion has passed:
`read += n`, and when the cursors meet both reset to 0. -/
def advanceU (b : Buffer) (n : Nat) : Buffer :=
  if b.read + n = b.write then ⟨0, 0, b.buf⟩ else ⟨b.read + n, b.write, b.buf⟩

/-- `Buffer::advance`: asserts `read + n <= write` (`none` models the panic). -/
def advance (b : Buffer) (n : Nat) : Option Buffer :=
  if b.read + n ≤ b.write then some (b.advanceU n) else none

/-- A writer placed `bytes` at the write cursor and called
`IoBufMut::set_init (bytes.length)`: contents of the region at
`write ..` become `bytes` and `write` advances by their count. -/
def fill (b : Buffer) (bytes : List Nat) : Buffer :=
  ⟨b.read, b.write + bytes.length, setSlice b.buf b.write bytes⟩

end Buffer

/-- The operations `safe_io.rs` performs on a staging `Buffer`:
`advance`, the copy path of the synchronous `io::Write::write`
(`set_init` bounded by `available`), the copy path of the synchronous
`io::Read::read`, the pump `SafeRead::do_io` (transport wrote `bytes`,
or `none` on a transport error) and the pump `SafeWrite::do_io`
(`write_all` succeeded iff `ok`). -/
inductive BufOp where
  | advance (n : Nat)
  | syncWrite (src : List Nat)
  | syncRead (dstLen : Nat)
  | pumpRead (res : Option (List Nat))
  | pumpWrite (ok : Bool)
deriving DecidableEq

/-- Effect of one operation on the staging buffer. `none` models a panic
of the `advance` assertion or a transport breaking the `IoBufMut`
contract (`set_init` beyond `bytes_total`). -/
def Buffer.step (b : Buffer) : BufOp → Option Buffer
  | .advance n => b.advance n
  | .syncWrite src =>
      if b.is_full then some b
      else some (b.fill (src.take (min src.length b.available)))
  | .syncRead dstLen =>
      if b.is_empty then some b else some (b.advanceU (min b.len dstLen))
  | .pumpRead res =>
      if b.is_empty then
        match res with
        | none => some b
        | some bytes =>
            if bytes.length ≤ b.available then some (b.fill bytes) else none
      else some b
  | .pumpWrite ok =>
      if b.is_empty then some b
      else if ok then some (b.advanceU b.len) else some b

/-- Run a sequence of staging-buffer operations. -/
def Buffer.runOps (b : Buffer) : List BufOp → Option Buffer
  | [] => some b
  | op :: ops => (b.step op).bind fun b2 => b2.runOps ops

/-- The cursor invariant of the staging buffer:
`read_pos <= write_pos <= capacity`, and the cursors are both 0
whenever they meet. -/
def BufferInv (b : Buffer) : Prop :=
  b.read ≤ b.write ∧ b.write ≤ b.buf.length ∧ (b.read = b.write → b.read = 0)

theorem setSlice_length (dst : List Nat) (i : Nat) (src : List Nat)
    (h : i + src.length ≤ dst.length) :
    (setSlice dst i src).length = dst.length := by
  simp only [setSlice, List.length_append, List.length_take, List.length_drop]
  omega

theorem bufferInv_new (size : Nat) : BufferInv (Buffer.new size) := by
  refine ⟨Nat.le_refl 0, by simp [Buffer.new], fun _ => rfl⟩

theorem bufferInv_advanceU (b : Buffer) (n : Nat) (hb : BufferInv b)
    (h : b.read + n ≤ b.write) : BufferInv (b.advanceU n) := by
  unfold BufferInv at hb ⊢
  obtain ⟨h1, h2, h3⟩ := hb
  unfold Buffer.advanceU
  by_cases hc : b.read + n = b.write
  · rw [if_pos hc]
    exact ⟨Nat.le_refl 0, Nat.zero_le _, fun _ => rfl⟩
  · rw [if_neg hc]
    exact ⟨h, h2, fun he => absurd he hc⟩

theorem bufferInv_fill (b : Buffer) (bytes : List Nat) (hb : BufferInv b)
    (h : bytes.length ≤ b.available) : BufferInv (b.fill bytes) := by
  unfold BufferInv at hb ⊢
  obtain ⟨h1, h2, h3⟩ := hb
  unfold Buffer.available at h
  unfold Buffer.fill
  dsimp only
  rw [setSlice_length b.buf b.write bytes (by omega)]
  refine ⟨by omega, by omega, ?_⟩
  intro he
  have hb0 : bytes.length = 0 := by omega
  have hrw : b.read = 0 := h3 (by omega)
  exact hrw

theorem bufferInv_step (b : Buffer) (op : BufOp) (b2 : Buffer)
    (hb : BufferInv b) (h : b.step op = some b2) : BufferInv b2 := by
  have hlen1 : ¬ b.is_empty = true → b.read < b.write := by
    intro hc
    simp only [Buffer.is_empty, Buffer.len, beq_iff_eq] at hc
    omega
  cases op with
  | advance n =>
      simp only [Buffer.step, Buffer.advance] at h
      by_cases hc : b.read + n ≤ b.write
      · rw [if_pos hc] at h
        cases h
        exact bufferInv_advanceU b n hb hc
      · rw [if_neg hc] at h
        cases h
  | syncWrite src =>
      simp only [Buffer.step] at h
      by_cases hc : b.is_full = true
      · rw [if_pos hc] at h
        cases h
        exact hb
      · rw [if_neg hc] at h
        cases h
        refine bufferInv_fill b _ hb ?_
        simp only [List.length_take]
        omega
  | syncRead dstLen =>
      simp only [Buffer.step] at h
      by_cases hc : b.is_empty = true
      · rw [if_pos hc] at h
        cases h
        exact hb
      · rw [if_neg hc] at h
        cases h
        refine bufferInv_advanceU b _ hb ?_
        have := hlen1 hc
        unfold Buffer.len
        omega
  | pumpRead res =>
      cases res with
      | none =>
          simp only [Buffer.step] at h
          by_cases hc : b.is_empty = true
          · rw [if_pos hc] at h
            cases h
            exact hb
          · rw [if_neg hc] at h
            cases h
            exact hb
      | some bytes =>
          simp only [Buffer.step] at h
          by_cases hc : b.is_empty = true
          · rw [if_pos hc] at h
            by_cases hl : bytes.length ≤ b.available
            · rw [if_pos hl] at h
              cases h
              exact bufferInv_fill b bytes hb hl
            · rw [if_neg hl] at h
              cases h
          · rw [if_neg hc] at h
            cases h
            exact hb
  | pumpWrite ok =>
      simp only [Buffer.step] at h
      by_cases hc : b.is_empty = true
      · rw [if_pos hc] at h
        cases h
        exact hb
      · rw [if_neg hc] at h
        cases ok with
        | true =>
            rw [if_pos rfl] at h
            cases h
            have := hlen1 hc
            exact bufferInv_advanceU b _ hb (by unfold Buffer.len; omega)
        | false =>
            simp only [Bool.false_eq_true, if_false] at h
            cases h
            exact hb

theorem bufferInv_runOps (b : Buffer) (ops : List BufOp) (b2 : Buffer)
    (hb : BufferInv b) (h : b.runOps ops = some b2) : BufferInv b2 := by
  induction ops generalizing b with
  | nil =>
      simp only [Buffer.runOps] at h
      cases h
      exact hb
  | cons op ops ih =>
      simp only [Buffer.runOps, Option.bind_eq_some] at h
      obtain ⟨bmid, hs, h⟩ := h
      exact ih bmid (bufferInv_step b op bmid hb hs) h

/-- C1: starting from `Buffer::new`, after every sequence of staging-buffer
operations (advance, set_init via synchronous write, synchronous read,
pump) that completes without a panic, the cursors satisfy
`read_pos <= write_pos <= capacity`, and whenever the cursors meet both
are 0. -/
theorem staging_buffer_invariant (size : Nat) (ops : List BufOp) (b : Buffer)
    (h : (Buffer.new size).runOps ops = some b) : BufferInv b :=
  bufferInv_runOps (Buffer.new size) ops b (bufferInv_new size) h

/-- Witness for C1 on a concrete five-operation run in a 4-byte buffer. -/
theorem staging_buffer_invariant_witness :
    BufferInv ⟨0, 0, [5, 2, 3, 0]⟩ :=
  staging_buffer_invariant 4
    [.syncWrite [1, 2, 3], .syncRead 2, .advance 1,
     .pumpRead (some [5]), .pumpWrite true]
    ⟨0, 0, [5, 2, 3, 0]⟩ (by decide)

/-- The status of `SafeRead` in `safe_io.rs`. -/
inductive ReadStatus where
  | eof
  | err (e : IoError)
  | ok
deriving DecidableEq

/-- `SafeRead`: the read-side staging buffer plus its terminal status. -/
structure SafeRead where
  buffer : Buffer
  status : ReadStatus
deriving DecidableEq

namespace SafeRead

/-- `SafeRead::new(buffer_size)`. -/
def new (buffer_size : Nat) : SafeRead := ⟨Buffer.new buffer_size, .ok⟩

/-- `SafeRead::do_io`. The transport rent-read outcome is `res`: on
`Except.ok bytes` the transport wrote `bytes` at the write cursor and
called `set_init` with their count; on `Except.error e` it failed. -/
def do_io (s : SafeRead) (res : Except IoError (List Nat)) :
    Except IoError Nat × SafeRead :=
  if s.buffer.is_empty then
    match res with
    | .ok bytes =>
        if bytes.length = 0 then (.ok 0, { s with status := .eof })
        else (.ok bytes.length, ⟨s.buffer.fill bytes, .ok⟩)
    | .error e => (.error (kindErr e.kind), { s with status := .err e })
  else (.ok s.buffer.len, s)

/-- Synchronous `io::Read::read for SafeRead`: the result, the new state,
and the bytes copied out to the destination of length `dstLen`. On an
empty buffer the status is `mem::replace`d with `Ok` before being
reported. -/
def read (s : SafeRead) (dstLen : Nat) :
    Except IoError Nat × SafeRead × List Nat :=
  if s.buffer.is_empty then
    match s.status with
    | .eof => (.ok 0, { s with status := .ok }, [])
    | .err e => (.error e, { s with status := .ok }, [])
    | .ok => (.error wouldBlockErr, { s with status := .ok }, [])
  else
    let to_copy := min s.buffer.len dstLen
    (.ok to_copy, { s with buffer := s.buffer.advanceU to_copy },
      (s.buffer.buf.drop s.buffer.read).take to_copy)

end SafeRead

/-- The status of `SafeWrite` in `safe_io.rs`. -/
inductive WriteStatus where
  | err (e : IoError)
  | ok
deriving DecidableEq

/-- `SafeWrite`: the write-side staging buffer plus its terminal status. -/
structure SafeWrite where
  buffer : Buffer
  status : WriteStatus
deriving DecidableEq

namespace SafeWrite

/-- `SafeWrite::new(buffer_size)`. -/
def new (buffer_size : Nat) : SafeWrite := ⟨Buffer.new buffer_size, .ok⟩

/-- Synchronous `io::Write::write for SafeWrite`. The status is
`mem::replace`d with `Ok`, then matched: a stored error is returned,
a full buffer yields `WouldBlock`, otherwise `min (src.len, available)`
bytes are copied in and `set_init`-ed. -/
def write (s : SafeWrite) (src : List Nat) : Except IoError Nat × SafeWrite :=
  match s.status with
  | .err e => (.error e, { s with status := .ok })
  | .ok =>
      if s.buffer.is_full then (.error wouldBlockErr, { s with status := .ok })
      else
        let to_copy := min src.length s.buffer.available
        (.ok to_copy, ⟨s.buffer.fill (src.take to_copy), .ok⟩)

/-- Synchronous `io::Write::flush for SafeWrite`: the status is
`mem::replace`d with `Ok`; a stored error is returned, a non-empty
buffer yields `WouldBlock`, otherwise `Ok(())`. -/
def flush (s : SafeWrite) : Except IoError Unit × SafeWrite :=
  match s.status with
  | .err e => (.error e, { s with status := .ok })
  | .ok =>
      if s.buffer.is_empty then (.ok (), { s with status := .ok })
      else (.error wouldBlockErr, { s with status := .ok })

/-- `SafeWrite::do_io`. On a non-empty buffer the transport
`write_all` either writes the whole initialized region
(`res = .ok ()`; `write_all` returns `bytes_init`, which is then
`advance`d) or fails with an error that is stored. -/
def do_io (s : SafeWrite) (res : Except IoError Unit) :
    Except IoError Nat × SafeWrite :=
  if s.buffer.is_empty then (.ok 0, s)
  else
    match res with
    | .ok _ =>
        (.ok s.buffer.len, { s with buffer := s.buffer.advanceU s.buffer.len })
    | .error e => (.error (kindErr e.kind), { s with status := .err e })

end SafeWrite

/-- C3: `SafeRead::do_io` returns the buffered count without transport
I/O and without touching the status when unread bytes exist; otherwise
one transport read happens and `Ok(n>0)` yields `n` with status `Ok`,
`Ok(0)` sets `Eof` and yields 0, and an error is stored while a fresh
error of the same kind is returned. -/
theorem safe_read_do_io_spec (s : SafeRead) (res : Except IoError (List Nat)) :
    (s.buffer.is_empty = false →
        (s.do_io res).1 = .ok s.buffer.len ∧ (s.do_io res).2 = s ∧
        ∀ res2, s.do_io res2 = s.do_io res) ∧
    (s.buffer.is_empty = true →
      (∀ bytes, res = .ok bytes → bytes.length ≠ 0 →
          (s.do_io res).1 = .ok bytes.length ∧ (s.do_io res).2.status = .ok) ∧
      (res = .ok [] →
          (s.do_io res).1 = .ok 0 ∧ (s.do_io res).2.status = .eof ∧
          (s.do_io res).2.buffer = s.buffer) ∧
      (∀ e, res = .error e →
          (s.do_io res).1 = .error (kindErr e.kind) ∧
          (s.do_io res).2.status = .err e ∧
          (s.do_io res).2.buffer = s.buffer)) := by
  constructor
  · intro hne
    unfold SafeRead.do_io
    rw [hne]
    exact ⟨rfl, rfl, fun res2 => rfl⟩
  · intro hemp
    refine ⟨?_, ?_, ?_⟩
    · intro bytes hres hlen
      subst hres
      constructor <;> simp [SafeRead.do_io, hemp, hlen]
    · intro hres
      subst hres
      refine ⟨?_, ?_, ?_⟩ <;> simp [SafeRead.do_io, hemp]
    · intro e hres
      subst hres
      refine ⟨?_, ?_, ?_⟩ <;> simp [SafeRead.do_io, hemp]

/-- Witness for C3: all four cases evaluated on concrete states. -/
theorem safe_read_do_io_spec_witness :
    ((⟨⟨0, 2, [7, 8]⟩, .ok⟩ : SafeRead).do_io (.ok [9])).1 = .ok 2 ∧
    ((SafeRead.new 2).do_io (.ok [5])).1 = .ok 1 ∧
    ((SafeRead.new 2).do_io (.ok [])).2.status = .eof ∧
    ((SafeRead.new 2).do_io (.error ⟨.other 3, "boom"⟩)).1 =
      .error ⟨.other 3, ""⟩ := by
  refine ⟨?_, ?_, ?_, ?_⟩
  · exact ((safe_read_do_io_spec ⟨⟨0, 2, [7, 8]⟩, .ok⟩ (.ok [9])).1 (by decide)).1
  · exact (((safe_read_do_io_spec (SafeRead.new 2) (.ok [5])).2 (by decide)).1
      [5] rfl (by decide)).1
  · exact ((((safe_read_do_io_spec (SafeRead.new 2) (.ok [])).2 (by decide)).2.1)
      rfl).2.1
  · exact ((((safe_read_do_io_spec (SafeRead.new 2)
      (.error ⟨.other 3, "boom"⟩)).2 (by decide)).2.2)
      ⟨.other 3, "boom"⟩ rfl).1

/-- C4: the synchronous `SafeRead` read copies `min(len, dst.len)` and
advances the read cursor when the buffer is non-empty; on an empty
buffer it reports the status (`Eof` as `Ok(0)`, a stored error as that
error, otherwise `WouldBlock`), the status is consumed, and an
immediately repeated read returns `WouldBlock`. -/
theorem safe_read_sync_read_spec (s : SafeRead) (dstLen : Nat) :
    (s.buffer.is_empty = false →
        (s.read dstLen).1 = .ok (min s.buffer.len dstLen) ∧
        (s.read dstLen).2.1.buffer = s.buffer.advanceU (min s.buffer.len dstLen) ∧
        (s.read dstLen).2.2.length = min (min s.buffer.len dstLen)
          (s.buffer.buf.length - s.buffer.read)) ∧
    (s.buffer.is_empty = true →
        (s.status = .eof → (s.read dstLen).1 = .ok 0) ∧
        (∀ e, s.status = .err e → (s.read dstLen).1 = .error e) ∧
        (s.status = .ok → (s.read dstLen).1 = .error wouldBlockErr) ∧
        (s.read dstLen).2.1.status = .ok ∧
        (∀ dstLen2, ((s.read dstLen).2.1.read dstLen2).1 =
          .error wouldBlockErr)) := by
  constructor
  · intro hne
    refine ⟨?_, ?_, ?_⟩ <;>
      simp [SafeRead.read, hne, List.length_take, List.length_drop]
  · intro hemp
    have hread : ∀ st : ReadStatus,
        SafeRead.read ⟨s.buffer, st⟩ dstLen =
          (match st with
            | .eof => (.ok 0, ⟨s.buffer, .ok⟩, [])
            | .err e => (.error e, ⟨s.buffer, .ok⟩, [])
            | .ok => (.error wouldBlockErr, ⟨s.buffer, .ok⟩, [])) := by
      intro st
      unfold SafeRead.read
      rw [hemp]
      cases st <;> rfl
    obtain ⟨br, bst⟩ := s
    dsimp only at hemp ⊢
    refine ⟨?_, ?_, ?_, ?_, ?_⟩
    · intro hst
      subst hst
      rw [hread .eof]
    · intro e hst
      subst hst
      rw [hread (.err e)]
    · intro hst
      subst hst
      rw [hread .ok]
    · cases bst <;> rw [hread]
    · intro dstLen2
      cases bst <;> rw [hread] <;>
        · dsimp only
          unfold SafeRead.read
          rw [hemp]
          rfl

/-- Witness for C4: the copy case, the three empty-buffer cases, and the
repeated-read case evaluated on concrete states. -/
theorem safe_read_sync_read_spec_witness :
    ((⟨⟨0, 2, [7, 8]⟩, .ok⟩ : SafeRead).read 1).1 = .ok 1 ∧
    ((⟨Buffer.new 2, .eof⟩ : SafeRead).read 4).1 = .ok 0 ∧
    ((⟨Buffer.new 2, .err ⟨.other 3, "boom"⟩⟩ : SafeRead).read 4).1 =
      .error ⟨.other 3, "boom"⟩ ∧
    ((SafeRead.new 2).read 4).1 = .error wouldBlockErr ∧
    (((⟨Buffer.new 2, .eof⟩ : SafeRead).read 4).2.1.read 4).1 =
      .error wouldBlockErr := by
  refine ⟨?_, ?_, ?_, ?_, ?_⟩
  · exact ((safe_read_sync_read_spec ⟨⟨0, 2, [7, 8]⟩, .ok⟩ 1).1 (by decide)).1
  · exact (((safe_read_sync_read_spec ⟨Buffer.new 2, .eof⟩ 4).2 (by decide)).1) rfl
  · exact ((((safe_read_sync_read_spec
      ⟨Buffer.new 2, .err ⟨.other 3, "boom"⟩⟩ 4).2 (by decide)).2.1)
      ⟨.other 3, "boom"⟩ rfl)
  · exact (((safe_read_sync_read_spec (SafeRead.new 2) 4).2 (by decide)).2.2.1) rfl
  · exact ((((safe_read_sync_read_spec ⟨Buffer.new 2, .eof⟩ 4).2
      (by decide)).2.2.2.2) 4)

/-- C2 counterexample: the write-side stored pump error is not sticky.
After a failed pump, the first synchronous write surfaces the stored
error, but the immediately following write succeeds (returns `Ok 1`),
and a following flush does not surface the stored error either. -/
theorem safe_write_sticky_counterexample :
    ((((SafeWrite.new 4).write [9]).2.do_io
        (.error ⟨.other 7, "boom"⟩)).2.write [8]).1 =
      .error ⟨.other 7, "boom"⟩ ∧
    (((((SafeWrite.new 4).write [9]).2.do_io
        (.error ⟨.other 7, "boom"⟩)).2.write [8]).2.write [8]).1 = .ok 1 ∧
    (((((SafeWrite.new 4).write [9]).2.do_io
        (.error ⟨.other 7, "boom"⟩)).2.write [8]).2.flush).1 =
      .error wouldBlockErr := by
  refine ⟨rfl, rfl, rfl⟩

/-- C2 (amended): the stored pump error on the write side is consumed
one-shot. A state holding `Err(e)` surfaces `e` on the next synchronous
write and on the next synchronous flush, each of which resets the status
to `Ok` and leaves the buffer unchanged, so later operations behave as
with a clean status. -/
theorem safe_write_error_one_shot (s : SafeWrite) (e : IoError)
    (h : s.status = .err e) :
    (∀ src, s.write src = (.error e, ⟨s.buffer, .ok⟩)) ∧
    s.flush = (.error e, ⟨s.buffer, .ok⟩) := by
  obtain ⟨bf, st⟩ := s
  dsimp only at h
  subst h
  constructor
  · intro src
    rfl
  · rfl

/-- Witness for C2 (amended) on a concrete errored write state. -/
theorem safe_write_error_one_shot_witness :
    ((⟨⟨0, 1, [9, 0]⟩, .err ⟨.other 7, "boom"⟩⟩ : SafeWrite).write [8]) =
      (.error ⟨.other 7, "boom"⟩, ⟨⟨0, 1, [9, 0]⟩, .ok⟩) ∧
    ((⟨⟨0, 1, [9, 0]⟩, .err ⟨.other 7, "boom"⟩⟩ : SafeWrite).flush) =
      (.error ⟨.other 7, "boom"⟩, ⟨⟨0, 1, [9, 0]⟩, .ok⟩) :=
  ⟨(safe_write_error_one_shot ⟨⟨0, 1, [9, 0]⟩, .err ⟨.other 7, "boom"⟩⟩
      ⟨.other 7, "boom"⟩ rfl).1 [8],
   (safe_write_error_one_shot ⟨⟨0, 1, [9, 0]⟩, .err ⟨.other 7, "boom"⟩⟩
      ⟨.other 7, "boom"⟩ rfl).2⟩

/-- C10: with a clean status, a synchronous `SafeWrite` write of a
non-empty slice returns `WouldBlock` exactly when the buffer is full,
and otherwise accepts `min (src.len, available)` bytes, which is at
least 1 — it never returns `Ok 0` for a non-empty input. -/
theorem safe_write_progress (s : SafeWrite) (src : List Nat)
    (hok : s.status = .ok) (hne : src ≠ []) :
    ((s.write src).1 = .error wouldBlockErr ↔ s.buffer.is_full = true) ∧
    (s.buffer.is_full = false →
        (s.write src).1 = .ok (min src.length s.buffer.available) ∧
        1 ≤ min src.length s.buffer.available) ∧
    ∀ k, (s.write src).1 = .ok k → 1 ≤ k := by
  obtain ⟨bf, st⟩ := s
  dsimp only at hok
  subst hok
  have hsrc : 1 ≤ src.length := by
    cases src with
    | nil => exact absurd rfl hne
    | cons a l => exact Nat.succ_le_succ (Nat.zero_le _)
  by_cases hf : bf.is_full = true
  · refine ⟨⟨fun _ => hf, fun _ => ?_⟩, fun hc => absurd hf (by rw [hc]; decide), ?_⟩
    · simp [SafeWrite.write, hf]
    · intro k hk
      simp [SafeWrite.write, hf] at hk
  · have havail : 1 ≤ bf.available := by
      simp only [Buffer.is_full, beq_iff_eq] at hf
      omega
    have hval : (SafeWrite.write ⟨bf, .ok⟩ src).1 =
        .ok (min src.length bf.available) := by
      simp [SafeWrite.write, hf]
    have hmin : 1 ≤ min src.length bf.available := le_min hsrc havail
    refine ⟨⟨fun hc => ?_, fun hc => absurd hc (by simp [hf])⟩,
      fun _ => ⟨hval, hmin⟩, ?_⟩
    · rw [hval] at hc
      cases hc
    · intro k hk
      rw [hval] at hk
      cases hk
      exact hmin

/-- Witness for C10: a one-free-byte buffer accepts exactly one byte of
a two-byte input, and a full buffer would-block. -/
theorem safe_write_progress_witness :
    ((⟨⟨0, 1, [9, 0]⟩, .ok⟩ : SafeWrite).write [5, 6]).1 = .ok 1 ∧
    ((⟨⟨0, 2, [9, 9]⟩, .ok⟩ : SafeWrite).write [5]).1 = .error wouldBlockErr := by
  constructor
  · have h := ((safe_write_progress ⟨⟨0, 1, [9, 0]⟩, .ok⟩ [5, 6] rfl
      (by decide)).2.1 (by decide)).1
    simpa using h
  · exact ((safe_write_progress ⟨⟨0, 2, [9, 9]⟩, .ok⟩ [5] rfl
      (by decide)).1.2 (by decide))

/-- Abstract view of the rustls session plus transport as used by
`Stream::handshake` in `monoio-rustls/src/stream.rs`: the state-machine
queries and the two pump operations `write_io` / `read_io(false)`,
each returning an `io::Result<usize>` and the successor state. -/
structure HsIface (σ : Type) where
  wants_write : σ → Bool
  wants_read : σ → Bool
  is_handshaking : σ → Bool
  write_io : σ → Except IoError Nat × σ
  read_io : σ → Except IoError Nat × σ

/-- The first inner loop of `Stream::handshake`:
`while wants_write && is_handshaking { wrlen += write_io()? }`.
Fuel-bounded; `none` means the fuel ran out. -/
def hs_write_loop {σ : Type} (I : HsIface σ) :
    Nat → σ → Nat → Option (Except IoError Nat × σ)
  | 0, _, _ => none
  | f + 1, s, acc =>
      if I.wants_write s && I.is_handshaking s then
        match I.write_io s with
        | (.ok n, s1) => hs_write_loop I f s1 (acc + n)
        | (.error e, s1) => some (.error e, s1)
      else some (.ok acc, s)

/-- The second inner loop of `Stream::handshake`:
`while !eof && wants_read && is_handshaking { n = read_io(false)?;
rdlen += n; if n == 0 { eof = true } }`. Returns the accumulated
`rdlen` and the final `eof` flag. -/
def hs_read_loop {σ : Type} (I : HsIface σ) :
    Nat → σ → Bool → Nat → Option (Except IoError (Nat × Bool) × σ)
  | 0, _, _, _ => none
  | f + 1, s, eof, acc =>
      if !eof && I.wants_read s && I.is_handshaking s then
        match I.read_io s with
        | (.ok n, s1) => hs_read_loop I f s1 (n == 0) (acc + n)
        | (.error e, s1) => some (.error e, s1)
      else some (.ok (acc, eof), s)

/-- The trailing drain of `Stream::handshake`:
`while wants_write { wrlen += write_io()? }`. -/
def hs_drain {σ : Type} (I : HsIface σ) :
    Nat → σ → Nat → Option (Except IoError Nat × σ)
  | 0, _, _ => none
  | f + 1, s, acc =>
      if I.wants_write s then
        match I.write_io s with
        | (.ok n, s1) => hs_drain I f s1 (acc + n)
        | (.error e, s1) => some (.error e, s1)
      else some (.ok acc, s)

/-- The outer loop of `Stream::handshake`, including the
`match (eof, is_handshaking)` decision and the final drain. -/
def hs_loop {σ : Type} (I : HsIface σ) :
    Nat → σ → Bool → Nat → Nat → Option (Except IoError (Nat × Nat) × σ)
  | 0, _, _, _, _ => none
  | f + 1, s, eof, rdlen, wrlen =>
      match hs_write_loop I (f + 1) s wrlen with
      | none => none
      | some (.error e, s1) => some (.error e, s1)
      | some (.ok wrlen1, s1) =>
          match hs_read_loop I (f + 1) s1 eof rdlen with
          | none => none
          | some (.error e, s2) => some (.error e, s2)
          | some (.ok (rdlen1, eof1), s2) =>
              if eof1 && I.is_handshaking s2 then
                some (.error ⟨.unexpectedEof, "tls handshake eof"⟩, s2)
              else if I.is_handshaking s2 then
                hs_loop I f s2 eof1 rdlen1 wrlen1
              else
                match hs_drain I (f + 1) s2 wrlen1 with
                | none => none
                | some (.error e, s3) => some (.error e, s3)
                | some (.ok wrlen2, s3) => some (.ok (rdlen1, wrlen2), s3)

/-- `Stream::handshake`: the outer loop started with
`eof = false, rdlen = 0, wrlen = 0`. -/
def handshake {σ : Type} (I : HsIface σ) (fuel : Nat) (s : σ) :
    Option (Except IoError (Nat × Nat) × σ) :=
  hs_loop I fuel s false 0 0

theorem hs_drain_ok_wants_write {σ : Type} (I : HsIface σ) :
    ∀ f s acc n s3, hs_drain I f s acc = some (.ok n, s3) →
      I.wants_write s3 = false := by
  intro f
  induction f with
  | zero =>
      intro s acc n s3 h
      simp [hs_drain] at h
  | succ f ih =>
      intro s acc n s3 h
      simp only [hs_drain] at h
      by_cases hw : I.wants_write s = true
      · rw [if_pos hw] at h
        cases hio : I.write_io s with
        | mk r s1 =>
            rw [hio] at h
            cases r with
            | ok k => exact ih s1 (acc + k) n s3 h
            | error e => simp at h
      · rw [if_neg hw] at h
        simp only [Option.some.injEq, Prod.mk.injEq, Except.ok.injEq] at h
        obtain ⟨_, h2⟩ := h
        subst h2
        simpa using hw

theorem hs_loop_ok_wants_write {σ : Type} (I : HsIface σ) :
    ∀ f s eof rdlen wrlen r s3,
      hs_loop I f s eof rdlen wrlen = some (.ok r, s3) →
      I.wants_write s3 = false := by
  intro f
  induction f with
  | zero =>
      intro s eof rdlen wrlen r s3 h
      simp [hs_loop] at h
  | succ f ih =>
      intro s eof rdlen wrlen r s3 h
      simp only [hs_loop] at h
      cases hw : hs_write_loop I (f + 1) s wrlen with
      | none => rw [hw] at h; simp at h
      | some pw =>
          rw [hw] at h
          obtain ⟨rw1, s1⟩ := pw
          cases rw1 with
          | error e => simp at h
          | ok wrlen1 =>
              dsimp only at h
              cases hr : hs_read_loop I (f + 1) s1 eof rdlen with
              | none => rw [hr] at h; simp at h
              | some pr =>
                  rw [hr] at h
                  obtain ⟨rr, s2⟩ := pr
                  cases rr with
                  | error e => simp at h
                  | ok rdeof =>
                      obtain ⟨rdlen1, eof1⟩ := rdeof
                      dsimp only at h
                      by_cases he : (eof1 && I.is_handshaking s2) = true
                      · rw [if_pos he] at h
                        simp at h
                      · rw [if_neg he] at h
                        by_cases hh : I.is_handshaking s2 = true
                        · rw [if_pos hh] at h
                          exact ih s2 eof1 rdlen1 wrlen1 r s3 h
                        · rw [if_neg hh] at h
                          cases hd : hs_drain I (f + 1) s2 wrlen1 with
                          | none => rw [hd] at h; simp at h
                          | some pd =>
                              rw [hd] at h
                              obtain ⟨rd, s4⟩ := pd
                              cases rd with
                              | error e => simp at h
                              | ok wrlen2 =>
                                  simp only [Option.some.injEq,
                                    Prod.mk.injEq, Except.ok.injEq] at h
                                  obtain ⟨_, h2⟩ := h
                                  rw [← h2]
                                  exact hs_drain_ok_wants_write I (f + 1)
                                    s2 wrlen1 wrlen2 s4 hd

/-- C5: in `Stream::handshake`, when the inner read loop ends with
`eof = true` (a pump read returned 0) and the session still reports
`is_handshaking`, the handshake returns `UnexpectedEof`
"tls handshake eof"; and every `Ok((rdlen, wrlen))` return happens only
after draining: the final state has `wants_write = false`. -/
theorem handshake_eof_spec {σ : Type} (I : HsIface σ) :
    (∀ f s eof rdlen wrlen wr1 s1 rd1 s2,
        hs_write_loop I (f + 1) s wrlen = some (.ok wr1, s1) →
        hs_read_loop I (f + 1) s1 eof rdlen = some (.ok (rd1, true), s2) →
        I.is_handshaking s2 = true →
        hs_loop I (f + 1) s eof rdlen wrlen =
          some (.error ⟨.unexpectedEof, "tls handshake eof"⟩, s2)) ∧
    (∀ f s r s3, handshake I f s = some (.ok r, s3) →
        I.wants_write s3 = false) := by
  constructor
  · intro f s eof rdlen wrlen wr1 s1 rd1 s2 h1 h2 h3
    simp only [hs_loop]
    rw [h1]
    dsimp only
    rw [h2]
    dsimp only
    simp only [h3, Bool.and_self, if_pos]
  · intro f s r s3 h
    exact hs_loop_ok_wants_write I f s false 0 0 r s3 h

/-- Oracle on which the handshake hits transport EOF mid-handshake. -/
def hsOracleEof : HsIface Nat where
  wants_write := fun _ => false
  wants_read := fun s => s == 0
  is_handshaking := fun _ => true
  write_io := fun s => (.ok 0, s)
  read_io := fun s => (.ok 0, s + 1)

/-- Oracle whose session is already done handshaking and wants nothing. -/
def hsOracleDone : HsIface Nat where
  wants_write := fun _ => false
  wants_read := fun _ => false
  is_handshaking := fun _ => false
  write_io := fun s => (.ok 0, s)
  read_io := fun s => (.ok 0, s)

/-- Witness for C5 on the two concrete oracles. -/
theorem handshake_eof_spec_witness :
    hs_loop hsOracleEof 2 0 false 0 0 =
      some (.error ⟨.unexpectedEof, "tls handshake eof"⟩, 1) ∧
    hsOracleDone.wants_write 0 = false :=
  ⟨(handshake_eof_spec hsOracleEof).1 1 0 false 0 0 0 0 0 1 rfl rfl rfl,
   (handshake_eof_spec hsOracleDone).2 1 0 (0, 0) 0 rfl⟩

/-- Abstract view of the rustls session as used by `Stream::read_io` and
`Stream::read_inner`: `read_tls` pulls record bytes from the read
staging buffer, `process_new_packets` runs the state machine (its `Ok`
carries `peer_has_closed`, its `Err` the engine diagnostic),
`reader_read` is `session.reader().read` on a destination of the given
length, `pump_read` is `r_buffer.do_io(io)`, and `write_io` is the
best-effort alert write `Stream::write_io`. -/
structure SessionIface (σ : Type) where
  read_tls : σ → Except IoError Nat × σ
  process_new_packets : σ → Except String Bool × σ
  is_handshaking : σ → Bool
  reader_read : σ → Nat → Except IoError Nat × σ
  pump_read : σ → Except IoError Nat × σ
  write_io : σ → Except IoError Nat × σ

/-- `Stream::read_io(splitted)` of `monoio-rustls/src/stream.rs`:
loop `read_tls`; on `WouldBlock` pump the read buffer and retry; on
success run `process_new_packets` — on its failure do one best-effort
`write_io` only when not splitted and return `InvalidData`; report
`UnexpectedEof` "tls handshake alert" when the peer closed while
handshaking; otherwise return the `read_tls` count. -/
def read_io {σ : Type} (I : SessionIface σ) :
    Nat → σ → Bool → Option (Except IoError Nat × σ)
  | 0, _, _ => none
  | f + 1, s, splitted =>
      match I.read_tls s with
      | (.ok n, s1) =>
          match I.process_new_packets s1 with
          | (.error msg, s2) =>
              let s3 := if splitted then s2 else (I.write_io s2).2
              some (.error ⟨.invalidData, msg⟩, s3)
          | (.ok peer_closed, s2) =>
              if peer_closed && I.is_handshaking s2 then
                some (.error ⟨.unexpectedEof, "tls handshake alert"⟩, s2)
              else some (.ok n, s2)
      | (.error e, s1) =>
          if e.kind == ErrKind.wouldBlock then
            match I.pump_read s1 with
            | (.ok _, s2) => read_io I f s2 splitted
            | (.error e2, s2) => some (.error e2, s2)
          else some (.error e, s1)

/-- `Stream::read_inner(buf, splitted)`: loop the engine's plaintext
reader; on `WouldBlock` call `read_io` — `Ok(0)` there means transport
EOF and yields `UnexpectedEof` "tls raw stream eof". -/
def read_inner {σ : Type} (I : SessionIface σ) :
    Nat → σ → Nat → Bool → Option (Except IoError Nat × σ)
  | 0, _, _, _ => none
  | f + 1, s, total, splitted =>
      match I.reader_read s total with
      | (.ok n, s1) => some (.ok n, s1)
      | (.error e, s1) =>
          if e.kind == ErrKind.wouldBlock then
            match read_io I (f + 1) s1 splitted with
            | none => none
            | some (.ok 0, s2) =>
                some (.error ⟨.unexpectedEof, "tls raw stream eof"⟩, s2)
            | some (.ok _, s2) => read_inner I f s2 total splitted
            | some (.error e2, s2) => some (.error e2, s2)
          else some (.error e, s1)

/-- `AsyncReadRent::read for Stream` calls `read_inner(buf, false)`. -/
def stream_read {σ : Type} (I : SessionIface σ) (f : Nat) (s : σ)
    (total : Nat) : Option (Except IoError Nat × σ) :=
  read_inner I f s total false

/-- `ReadHalf::read` calls `read_inner(buf, true)` on the shared stream. -/
def read_half_read {σ : Type} (I : SessionIface σ) (f : Nat) (s : σ)
    (total : Nat) : Option (Except IoError Nat × σ) :=
  read_inner I f s total true

/-- Abstract view of the native-tls engine as used by
`AsyncReadRent::read for TlsStream` in `monoio-native-tls/src/stream.rs`:
`tls_read` is `self.tls.read(slice)` and `do_read_io` pumps the read
staging buffer. -/
structure NativeIface (σ : Type) where
  tls_read : σ → Except IoError Nat × σ
  do_read_io : σ → Except IoError Nat × σ

/-- The read loop of the native-tls `TlsStream`: loop `tls.read`; on
`WouldBlock` call `do_read_io` — on its `Ok(0)` the function returns
`Ok(0)` to the caller. -/
def native_tls_read {σ : Type} (I : NativeIface σ) :
    Nat → σ → Option (Except IoError Nat × σ)
  | 0, _ => none
  | f + 1, s =>
      match I.tls_read s with
      | (.ok n, s1) => some (.ok n, s1)
      | (.error e, s1) =>
          if e.kind == ErrKind.wouldBlock then
            match I.do_read_io s1 with
            | (.ok 0, s2) => some (.ok 0, s2)
            | (.ok _, s2) => native_tls_read I f s2
            | (.error e2, s2) => some (.error e2, s2)
          else some (.error e, s1)

/-- Concrete native-tls oracle: the engine always wants more records and
the transport is at EOF. -/
def nativeEofOracle : NativeIface Nat where
  tls_read := fun s => (.error wouldBlockErr, s)
  do_read_io := fun s => (.ok 0, s + 1)

/-- C6 counterexample: on transport EOF during application data the
native-tls read returns `Ok 0` to the caller, not the claimed
`UnexpectedEof` "tls raw stream eof" error. -/
theorem native_read_eof_counterexample :
    native_tls_read nativeEofOracle 1 0 = some (.ok 0, 1) ∧
    native_tls_read nativeEofOracle 1 0 ≠
      some (.error ⟨.unexpectedEof, "tls raw stream eof"⟩, 1) := by
  have h1 : native_tls_read nativeEofOracle 1 0 = some (.ok 0, 1) := rfl
  refine ⟨h1, ?_⟩
  rw [h1]
  simp

/-- C6 (amended): when the engine's plaintext reader would-blocks and the
following `read_io` reports `Ok(0)` (transport EOF), the rustls stream
read returns `UnexpectedEof` "tls raw stream eof" (for every destination
length and in both split modes), while the native-tls stream read
returns `Ok 0` in the analogous situation. -/
theorem raw_stream_eof_spec {σ : Type} (I : SessionIface σ)
    (J : NativeIface σ) :
    (∀ f s total splitted e s1 s2,
        I.reader_read s total = (.error e, s1) → e.kind = .wouldBlock →
        read_io I (f + 1) s1 splitted = some (.ok 0, s2) →
        read_inner I (f + 1) s total splitted =
          some (.error ⟨.unexpectedEof, "tls raw stream eof"⟩, s2)) ∧
    (∀ f s e s1 s2,
        J.tls_read s = (.error e, s1) → e.kind = .wouldBlock →
        J.do_read_io s1 = (.ok 0, s2) →
        native_tls_read J (f + 1) s = some (.ok 0, s2)) := by
  constructor
  · intro f s total splitted e s1 s2 h1 hk h2
    simp only [read_inner]
    rw [h1]
    dsimp only
    rw [if_pos (by simp [hk])]
    rw [h2]
  · intro f s e s1 s2 h1 hk h2
    simp only [native_tls_read]
    rw [h1]
    dsimp only
    rw [if_pos (by simp [hk])]
    rw [h2]

/-- Concrete rustls oracle: the plaintext reader would-blocks and
`read_tls` finds the staging buffer at EOF (pulls 0 record bytes). -/
def sessOracleEof : SessionIface Nat where
  read_tls := fun s => (.ok 0, s)
  process_new_packets := fun s => (.ok false, s)
  is_handshaking := fun _ => false
  reader_read := fun s _ => (.error wouldBlockErr, s)
  pump_read := fun s => (.ok 1, s)
  write_io := fun s => (.ok 0, s)

/-- Witness for C6 (amended) on the two concrete oracles. -/
theorem raw_stream_eof_spec_witness :
    read_inner sessOracleEof 1 0 8 false =
      some (.error ⟨.unexpectedEof, "tls raw stream eof"⟩, 0) ∧
    native_tls_read nativeEofOracle 1 0 = some (.ok 0, 1) :=
  ⟨(raw_stream_eof_spec sessOracleEof nativeEofOracle).1
      0 0 8 false wouldBlockErr 0 0 rfl rfl rfl,
   (raw_stream_eof_spec sessOracleEof nativeEofOracle).2
      0 0 wouldBlockErr 0 1 rfl rfl rfl⟩

/-- C7: when `process_new_packets` fails, `read_io` returns `InvalidData`
wrapping the engine diagnostic; the best-effort `write_io` runs exactly
when `splitted = false`; and the unsplit stream read passes
`splitted = false` while `ReadHalf::read` passes `splitted = true`. -/
theorem read_io_invalid_data_spec {σ : Type} (I : SessionIface σ) :
    (∀ f s n s1 msg s2,
        I.read_tls s = (.ok n, s1) →
        I.process_new_packets s1 = (.error msg, s2) →
        read_io I (f + 1) s false =
          some (.error ⟨.invalidData, msg⟩, (I.write_io s2).2) ∧
        read_io I (f + 1) s true = some (.error ⟨.invalidData, msg⟩, s2)) ∧
    (∀ f s total, stream_read I f s total = read_inner I f s total false) ∧
    (∀ f s total, read_half_read I f s total = read_inner I f s total true) := by
  refine ⟨?_, fun f s total => rfl, fun f s total => rfl⟩
  intro f s n s1 msg s2 h1 h2
  constructor
  · simp only [read_io]
    rw [h1]
    dsimp only
    rw [h2]
    simp
  · simp only [read_io]
    rw [h1]
    dsimp only
    rw [h2]
    simp

/-- Concrete rustls oracle whose `process_new_packets` fails; its
best-effort `write_io` moves the state to `s + 10`, making the
split/unsplit difference observable. -/
def sessOracleBad : SessionIface Nat where
  read_tls := fun s => (.ok 3, s)
  process_new_packets := fun s => (.error "corrupt message", s)
  is_handshaking := fun _ => true
  reader_read := fun s _ => (.error wouldBlockErr, s)
  pump_read := fun s => (.ok 1, s)
  write_io := fun s => (.ok 2, s + 10)

/-- Witness for C7: the failing oracle takes the alert-write path only
in unsplit mode, and the two public read entry points evaluate to
`read_inner` with the matching flag. -/
theorem read_io_invalid_data_spec_witness :
    read_io sessOracleBad 1 0 false =
      some (.error ⟨.invalidData, "corrupt message"⟩, 10) ∧
    read_io sessOracleBad 1 0 true =
      some (.error ⟨.invalidData, "corrupt message"⟩, 0) ∧
    stream_read sessOracleBad 2 0 8 = read_inner sessOracleBad 2 0 8 false ∧
    read_half_read sessOracleBad 2 0 8 = read_inner sessOracleBad 2 0 8 true :=
  ⟨((read_io_invalid_data_spec sessOracleBad).1 0 0 3 0
      "corrupt message" 0 rfl rfl).1,
   ((read_io_invalid_data_spec sessOracleBad).1 0 0 3 0
      "corrupt message" 0 rfl rfl).2,
   (read_io_invalid_data_spec sessOracleBad).2.1 2 0 8,
   (read_io_invalid_data_spec sessOracleBad).2.2 2 0 8⟩

/-- `ReadHalf` of `monoio-rustls/src/split.rs`: its `inner` field is the
`Rc<UnsafeCell<Stream>>`, modelled by the allocation identity of the
shared backing. -/
structure ReadHalf where
  inner : Nat
deriving DecidableEq

/-- `WriteHalf` of `monoio-rustls/src/split.rs`. -/
structure WriteHalf where
  inner : Nat
deriving DecidableEq

/-- `split` hands both halves the same `Rc` allocation. -/
def split (p : Nat) : ReadHalf × WriteHalf := (⟨p⟩, ⟨p⟩)

/-- `reunite(read, write)` of `split.rs`: `Rc::ptr_eq` on the two
backings; on success drop one reference and unwrap the unique stream
(looked up by allocation in `heap`); on mismatch return
`ReuniteError(read, write)`. -/
def reunite {α : Type} (heap : Nat → α) (r : ReadHalf) (w : WriteHalf) :
    Except (ReadHalf × WriteHalf) α :=
  if r.inner = w.inner then .ok (heap r.inner) else .error (r, w)

/-- C8: `reunite` succeeds with the unique underlying stream exactly when
the halves share the same backing allocation; otherwise it returns a
`ReuniteError` carrying back exactly the two halves it was given, and
the halves of one `split` always reunite. -/
theorem reunite_spec {α : Type} (heap : Nat → α) (r : ReadHalf)
    (w : WriteHalf) :
    (r.inner = w.inner → reunite heap r w = .ok (heap r.inner)) ∧
    (r.inner ≠ w.inner → reunite heap r w = .error (r, w)) ∧
    (∀ p, reunite heap (split p).1 (split p).2 = .ok (heap p)) := by
  refine ⟨?_, ?_, ?_⟩
  · intro h
    unfold reunite
    rw [if_pos h]
  · intro h
    unfold reunite
    rw [if_neg h]
  · intro p
    unfold reunite split
    rw [if_pos rfl]

/-- Witness for C8 on concrete allocations 2 and 5. -/
theorem reunite_spec_witness :
    reunite (fun p => p * 100) ⟨2⟩ ⟨2⟩ = .ok 200 ∧
    reunite (fun p => p * 100) ⟨2⟩ ⟨5⟩ = .error (⟨2⟩, ⟨5⟩) ∧
    reunite (fun p => p * 100) (split 3).1 (split 3).2 = .ok 300 :=
  ⟨(reunite_spec (fun p => p * 100) ⟨2⟩ ⟨2⟩).1 rfl,
   (reunite_spec (fun p => p * 100) ⟨2⟩ ⟨5⟩).2.1 (by decide),
   (reunite_spec (fun p => p * 100) ⟨2⟩ ⟨2⟩).2.2 3⟩

/-- The `Status` of `unsafe_io.rs`: `WaitFill` optionally carries the
captured destination `(ptr, len)`; `Filled` carries the stored result of
the real transport read. -/
inductive UStatus where
  | waitFill (captured : Option (Nat × Nat))
  | filled (res : Except IoError Nat)

/-- `UnsafeRead`: the zero-copy read wrapper is only this status. -/
structure UnsafeRead where
  status : UStatus

/-- `UnsafeRead::new()`. -/
def UnsafeRead.new : UnsafeRead := ⟨.waitFill none⟩

/-- Synchronous `io::Read::read for UnsafeRead` on a destination
`(ptr, len)`: the status is `mem::replace`d with `WaitFill(None)`; in
`WaitFill` the destination is captured and `WouldBlock` returned; in
`Filled` the stored result is returned and the state stays reset. -/
def UnsafeRead.read (s : UnsafeRead) (ptr len : Nat) :
    Except IoError Nat × UnsafeRead :=
  match s.status with
  | .waitFill _ => (.error wouldBlockErr, ⟨.waitFill (some (ptr, len))⟩)
  | .filled ret => (ret, ⟨.waitFill none⟩)

/-- `UnsafeRead::do_io`: `transport ptr len` is the rent-read at the
captured region. The returned `Bool` records whether a real transport
read occurred in this call. In `WaitFill(Some)` the transport is called
once and its result stored; in `WaitFill(None)` `WouldBlock` is
returned; in `Filled` the previous result is replayed (errors by kind)
without touching the transport. -/
def UnsafeRead.do_io (s : UnsafeRead)
    (transport : Nat → Nat → Except IoError Nat) :
    Except IoError Nat × UnsafeRead × Bool :=
  match s.status with
  | .waitFill (some (ptr, len)) =>
      let r := transport ptr len
      (match r with
        | .ok n => .ok n
        | .error e => .error (kindErr e.kind), ⟨.filled r⟩, true)
  | .waitFill none => (.error wouldBlockErr, s, false)
  | .filled prev =>
      (match prev with
        | .ok n => .ok n
        | .error e => .error (kindErr e.kind), s, false)

/-- C9: the zero-copy read state machine. A synchronous read in a
`WaitFill` state captures `(ptr, len)` and would-blocks; `do_io` in the
captured state performs exactly one real transport read at the captured
`(ptr, len)` and stores its result; the next synchronous read returns
the stored result and resets the state; and `do_io` in the
uncaptured or already-filled states performs no transport read (the
filled state is replayed unchanged) — so each capture sees exactly one
real transport read before a synchronous read reports its result. -/
theorem zero_copy_state_machine (ptr len : Nat) (c : Option (Nat × Nat))
    (transport : Nat → Nat → Except IoError Nat) (r : Except IoError Nat) :
    (UnsafeRead.read ⟨.waitFill c⟩ ptr len =
      (.error wouldBlockErr, ⟨.waitFill (some (ptr, len))⟩)) ∧
    ((UnsafeRead.do_io ⟨.waitFill (some (ptr, len))⟩ transport).2 =
      (⟨.filled (transport ptr len)⟩, true)) ∧
    ((UnsafeRead.do_io ⟨.waitFill (some (ptr, len))⟩ transport).1 =
      match transport ptr len with
      | .ok n => .ok n
      | .error e => .error (kindErr e.kind)) ∧
    (UnsafeRead.read ⟨.filled r⟩ ptr len = (r, ⟨.waitFill none⟩)) ∧
    ((UnsafeRead.do_io ⟨.waitFill none⟩ transport).2 =
      (⟨.waitFill none⟩, false)) ∧
    ((UnsafeRead.do_io ⟨.filled r⟩ transport).2 = (⟨.filled r⟩, false)) := by
  refine ⟨rfl, rfl, rfl, rfl, rfl, rfl⟩
